import Mathlib

/-!
Shallow embedding of the rule-based special-detector subsystem of the
CinC2020 repository (`models/special_detectors.py`) together with the
signal-loading / resampling core of `official_phase_legacy/data_reader.py`,
and verification of the specification's claims about them.

Signals are embedded channel-first as `List (List ℚ)` (12 leads, each a
list of samples); machine floats become exact rationals.  The NumPy NaN
produced by `np.mean` of an empty array is embedded as `none : Option ℚ`,
with every comparison against it false, mirroring IEEE comparison
semantics used by the source.
-/

namespace Cinc2020

/-- Modelled from the spec: `utils.misc.ms2samples` is not shipped under
`src/`; the spec says millisecond quantities are "converted from a
millisecond configuration value to samples using the record's sampling
frequency", i.e. scaled by `fs / 1000` and rounded to an integer number
of samples. -/
def ms2samples (t : ℚ) (fs : ℚ) : ℤ :=
  round (t * fs / 1000)

/-- Modelled from the spec: `utils.misc.samples2ms` is not shipped under
`src/`; inverse conversion, a sample count scaled by `1000 / fs`. -/
def samples2ms (n : ℚ) (fs : ℚ) : ℚ :=
  n * 1000 / fs

/-- Modelled from the spec: the configuration object `cfg.FeatureCfg` is
not shipped under `src/`; the spec describes it as "a fixed set of named
numeric parameters ... supplied as an immutable configuration object".
Only the fields the embedded detectors read are modelled; their numeric
values stay abstract. -/
structure FeatureCfg where
  pr_spike_inv_density_threshold : ℚ
  pr_spike_leads_threshold : ℕ
  axis_method : String
  axis_qrs_mask_radius : ℚ
  tachy_threshold : ℚ
  brady_threshold : ℚ
  lqrsv_qrs_mask_radius : ℚ
  lqrsv_ampl_bias : ℚ
  lqrsv_ratio_threshold : ℚ

/-- `np.diff` on a 1-d integer array: successive differences. -/
def npDiff : List ℤ → List ℤ
  | a :: b :: t => (b - a) :: npDiff (b :: t)
  | _ => []

/-- `np.mean` on a 1-d integer array: `none` embeds the NaN returned on
an empty array. -/
def npMean : List ℤ → Option ℚ
  | [] => none
  | a :: t => some (((a :: t).map (fun z => (z : ℚ))).sum / ((a :: t).length : ℚ))

/-- `x < y` where `x` may be NaN (`none`): any comparison with NaN is
false. -/
def nanLt : Option ℚ → ℚ → Bool
  | none, _ => false
  | some v, x => decide (v < x)

/-- `x > y` where `x` may be NaN (`none`). -/
def nanGt : Option ℚ → ℚ → Bool
  | none, _ => false
  | some v, x => decide (x < v)

/-- The arithmetic mean of the R-R intervals of a peak list, as an exact
rational (meaningful when there are at least two peaks). -/
def meanRR (rpeaks : List ℤ) : ℚ :=
  ((npDiff rpeaks).map (fun z => (z : ℚ))).sum / (((npDiff rpeaks).length : ℕ) : ℚ)

/-- `normal_rr_range or [FeatureCfg.tachy_threshold, FeatureCfg.brady_threshold]`:
Python's `or` treats both `None` and the empty list as falsy. -/
def nrrDefault (normal_rr_range : Option (List ℚ)) (cfg : FeatureCfg) : List ℚ :=
  match normal_rr_range with
  | none => [cfg.tachy_threshold, cfg.brady_threshold]
  | some [] => [cfg.tachy_threshold, cfg.brady_threshold]
  | some (x :: xs) => x :: xs

/-- `brady_tachy_detector` of `models/special_detectors.py`:
mean R-R interval compared against the sorted, ms→sample-converted
threshold pair; `"T"`/`"B"`/`"N"` for tachycardia/bradycardia/normal.
The source's `assert len(nrr) >= 2` is embedded as `none` (the
`AssertionError` raised on a sub-2-element threshold range). -/
def brady_tachy_detector (rpeaks : List ℤ) (fs : ℚ)
    (normal_rr_range : Option (List ℚ)) (cfg : FeatureCfg) : Option String :=
  let rr_intervals := npDiff rpeaks
  let mean_rr := npMean rr_intervals
  let nrr0 := nrrDefault normal_rr_range cfg
  let nrr := List.insertionSort (fun a b => a ≤ b) nrr0
  match decide (nrr.length < 2) with
  | true => none
  | false =>
    let lo : ℤ := ms2samples (nrr.headD 0) fs
    let hi : ℤ := ms2samples (nrr.getLastD 0) fs
    some (if nanLt mean_rr (lo : ℚ) then "T"
      else if nanGt mean_rr (hi : ℚ) then "B"
      else "N")

theorem npDiff_length (l : List ℤ) : (npDiff l).length = l.length - 1 := by
  induction l with
  | nil => simp [npDiff]
  | cons a t ih =>
    cases t with
    | nil => simp [npDiff]
    | cons b u => simpa [npDiff] using ih

theorem npDiff_ne_nil {l : List ℤ} (h : 2 ≤ l.length) : npDiff l ≠ [] := by
  have hlen := npDiff_length l
  intro hnil
  rw [hnil] at hlen
  simp at hlen
  omega

theorem insertionSort_pair (t b : ℚ) :
    List.insertionSort (fun a b => a ≤ b) [t, b] =
      [min t b, max t b] := by
  by_cases h : t ≤ b
  · simp [List.insertionSort, List.orderedInsert, h, min_eq_left, max_eq_right]
  · have h' : b ≤ t := le_of_not_le h
    simp [List.insertionSort, List.orderedInsert, h, min_eq_right h', max_eq_left h']

/-- `ms2samples` is monotone in the millisecond value for a positive
sampling frequency. -/
theorem ms2samples_mono (fs : ℚ) (hfs : 0 < fs) {a b : ℚ} (h : a ≤ b) :
    ms2samples a fs ≤ ms2samples b fs := by
  unfold ms2samples
  rw [round_eq, round_eq]
  apply Int.floor_le_floor
  have hab : a * fs ≤ b * fs := mul_le_mul_of_nonneg_right h hfs.le
  linarith

/-- C1: with at least 2 peaks and an explicit two-element threshold list,
the rate detector sorts the thresholds ascending, converts them from ms
to samples, and returns `"T"` iff the mean R-R interval is strictly below
the lower bound, `"B"` iff it is strictly above the upper bound, and
`"N"` otherwise — in particular a mean exactly at the upper bound is
`"N"` (boundary-inclusive).  The sampling frequency is positive, per the
Waveform invariant. -/
theorem brady_tachy_verdict_characterisation (rpeaks : List ℤ) (fs : ℚ)
    (t b : ℚ) (cfg : FeatureCfg) (hfs : 0 < fs) (h2 : 2 ≤ rpeaks.length) :
    (brady_tachy_detector rpeaks fs (some [t, b]) cfg = some "T" ↔
      meanRR rpeaks < (ms2samples (min t b) fs : ℚ)) ∧
    (brady_tachy_detector rpeaks fs (some [t, b]) cfg = some "B" ↔
      (ms2samples (max t b) fs : ℚ) < meanRR rpeaks) ∧
    (brady_tachy_detector rpeaks fs (some [t, b]) cfg = some "N" ↔
      ((ms2samples (min t b) fs : ℚ) ≤ meanRR rpeaks ∧
        meanRR rpeaks ≤ (ms2samples (max t b) fs : ℚ))) := by
  have hne : npDiff rpeaks ≠ [] := npDiff_ne_nil h2
  have hmean : npMean (npDiff rpeaks) = some (meanRR rpeaks) := by
    rcases h : npDiff rpeaks with _ | ⟨a, u⟩
    · exact absurd h hne
    · simp [npMean, meanRR, h]
  have hhead : ([min t b, max t b] : List ℚ).headD 0 = min t b := rfl
  have hlast : ([min t b, max t b] : List ℚ).getLastD 0 = max t b := rfl
  have hsc : decide ((List.insertionSort (fun a b => a ≤ b) ([t, b] : List ℚ)).length < 2)
      = false := by
    have hl : (List.insertionSort (fun a b => a ≤ b) ([t, b] : List ℚ)).length = 2 :=
      (List.perm_insertionSort _ _).length_eq
    rw [hl]
    rfl
  have hhd : (List.insertionSort (fun a b => a ≤ b) ([t, b] : List ℚ)).headD 0 = min t b :=
    (congrArg (fun l => List.headD l 0) (insertionSort_pair t b)).trans hhead
  have hlst : (List.insertionSort (fun a b => a ≤ b) ([t, b] : List ℚ)).getLastD 0 = max t b :=
    (congrArg (fun l => List.getLastD l 0) (insertionSort_pair t b)).trans hlast
  simp only [brady_tachy_detector, nrrDefault]
  rw [hmean]
  simp only [hsc, hhd, hlst]
  have hlohi : ((ms2samples (min t b) fs : ℤ) : ℚ) ≤ (ms2samples (max t b) fs : ℚ) := by
    exact_mod_cast ms2samples_mono fs hfs (min_le_max)
  set lo : ℚ := (ms2samples (min t b) fs : ℚ) with hlo
  set hi : ℚ := (ms2samples (max t b) fs : ℚ) with hhi
  by_cases h1 : meanRR rpeaks < lo
  · have hnB : ¬ hi < meanRR rpeaks := not_lt.mpr (le_trans h1.le hlohi)
    have hnN : ¬ lo ≤ meanRR rpeaks := not_le.mpr h1
    simp [nanLt, nanGt, h1, hnB, hnN]
  · by_cases hB : hi < meanRR rpeaks
    · have hnN : ¬ meanRR rpeaks ≤ hi := not_le.mpr hB
      simp [nanLt, nanGt, h1, hB, hnN]
    · simp [nanLt, nanGt, h1, hB, le_of_not_lt h1, le_of_not_lt hB]

/-- A concrete configuration fixture used by the concrete evaluations
below; the claims themselves quantify over the configuration. -/
def testCfg : FeatureCfg :=
  { pr_spike_inv_density_threshold := 500, pr_spike_leads_threshold := 7
    axis_method := "2-lead", axis_qrs_mask_radius := 100
    tachy_threshold := 600, brady_threshold := 1000
    lqrsv_qrs_mask_radius := 60, lqrsv_ampl_bias := 0
    lqrsv_ratio_threshold := 8/10 }

/-- End-to-end scenario 1 of the spec: R-peaks `[100, 600, 1100, 1600]`
at 500 Hz with thresholds `tachy = 600 ms`, `brady = 1000 ms` give mean
R-R = 500 samples, exactly the upper bound, hence `"N"`. -/
theorem brady_tachy_verdict_characterisation_witness :
    (0 : ℚ) < 500 ∧
    2 ≤ ([100, 600, 1100, 1600] : List ℤ).length ∧
    brady_tachy_detector [100, 600, 1100, 1600] 500 (some [600, 1000]) testCfg = some "N" := by
  refine ⟨by norm_num, by decide, ?_⟩
  exact (brady_tachy_verdict_characterisation [100, 600, 1100, 1600] 500 600 1000
    testCfg (by norm_num) (by decide)).2.2.mpr (by
      constructor <;> · show (_ : ℚ) ≤ _; norm_num [meanRR, npDiff, ms2samples])

/-- C2 counterexample: with an empty peak list (fewer than 2 R-peaks)
and a well-formed threshold range, the rate detector does not fail at
all — it returns the verdict `"N"`. -/
theorem brady_tachy_empty_peaks_counterexample :
    brady_tachy_detector [] 500 (some [600, 1000]) testCfg = some "N" := by
  decide

/-- C2 (amended): with fewer than 2 R-peaks the rate detector never
raises an `InsufficientPeaksError` (no such class exists).  When the
(possibly defaulted) threshold range has at least two entries — so the
source's `assert len(nrr) >= 2` passes — `np.diff` is empty, `np.mean`
of it is NaN, every comparison against NaN is false, and the verdict
falls through to `"N"`; when an explicit range has fewer than two
entries, the `assert` raises `AssertionError` about the range
(independent of the peak count), still not a peak-count error. -/
theorem brady_tachy_few_peaks_normal_or_assert (rpeaks : List ℤ) (fs : ℚ)
    (normal_rr_range : Option (List ℚ)) (cfg : FeatureCfg)
    (hpeaks : rpeaks.length < 2) :
    (2 ≤ (nrrDefault normal_rr_range cfg).length →
      brady_tachy_detector rpeaks fs normal_rr_range cfg = some "N") ∧
    ((nrrDefault normal_rr_range cfg).length < 2 →
      brady_tachy_detector rpeaks fs normal_rr_range cfg = none) := by
  have hdiff : npDiff rpeaks = [] := by
    rcases rpeaks with _ | ⟨a, _ | ⟨b, u⟩⟩
    · rfl
    · rfl
    · simp at hpeaks; omega
  constructor
  · intro h2
    have hlenb : decide ((nrrDefault normal_rr_range cfg).length < 2) = false :=
      decide_eq_false (by omega)
    simp [brady_tachy_detector, hdiff, npMean, nanLt, nanGt, hlenb]
  · intro h2
    have hlenb : decide ((nrrDefault normal_rr_range cfg).length < 2) = true :=
      decide_eq_true h2
    simp [brady_tachy_detector, hdiff, hlenb]

theorem brady_tachy_few_peaks_normal_or_assert_witness :
    ([(5 : ℤ)] : List ℤ).length < 2 ∧
    2 ≤ (nrrDefault none testCfg).length ∧
    brady_tachy_detector [(5 : ℤ)] 500 none testCfg = some "N" :=
  ⟨by decide, by decide,
    (brady_tachy_few_peaks_normal_or_assert [(5 : ℤ)] 500 none testCfg (by decide)).1
      (by decide)⟩

/-- Decision stage of `pacing_rhythm_detector`: given the per-lead spike
index lists produced by the high-pass-filter / peak-detection stage, a
lead is spike-dense when `sig_duration_ms / spike_count` is below the
inverse-density threshold, and the verdict is true when at least
`pr_spike_leads_threshold` leads are spike-dense.  `none` embeds the
`ZeroDivisionError` raised when some lead has an empty spike list, since
the quotient is taken with no guard on the count. -/
def pacing_decision (cfg : FeatureCfg) (fs : ℚ) (sig_len : ℕ)
    (potential_spikes : List (List ℕ)) : Option Bool :=
  let sig_duration_ms := samples2ms (sig_len : ℚ) fs
  if potential_spikes.any (fun l => l.isEmpty) then none
  else
    some (decide (cfg.pr_spike_leads_threshold ≤
      potential_spikes.countP
        (fun l => decide (sig_duration_ms / (l.length : ℚ) <
          cfg.pr_spike_inv_density_threshold))))

/-- C10: whenever at least one lead yields zero detected spikes, the
pacing-rhythm decision stage hits the unguarded division by zero and
produces no boolean verdict. -/
theorem pacing_decision_zero_spikes_fails (cfg : FeatureCfg) (fs : ℚ)
    (sig_len : ℕ) (spikes : List (List ℕ)) (h : [] ∈ spikes) :
    pacing_decision cfg fs sig_len spikes = none := by
  have hany : spikes.any (fun l => l.isEmpty) = true :=
    List.any_eq_true.mpr ⟨[], h, rfl⟩
  simp [pacing_decision, hany]

theorem pacing_decision_zero_spikes_fails_witness :
    ([] ∈ ([[3, 10], []] : List (List ℕ))) ∧
    pacing_decision testCfg 500 100 [[3, 10], []] = none :=
  ⟨by decide, pacing_decision_zero_spikes_fails testCfg 500 100 [[3, 10], []] (by decide)⟩

/-- The resampling step of `CINC2020Reader.load_data`: resample only if
a target frequency is requested and differs from the tranche's native
frequency.  The polyphase resampler (`scipy.signal.resample_poly`) is an
external collaborator, passed in as a function. -/
def resample_step (resampler : List (List ℚ) → ℚ → ℚ → List (List ℚ))
    (data : List (List ℚ)) (freq : Option ℚ) (tranche_freq : ℚ) :
    List (List ℚ) :=
  match freq with
  | none => data
  | some f => if f ≠ tranche_freq then resampler data f tranche_freq else data

/-- Core of `CINC2020Reader.load_resampled_data`: resample to 500 Hz if
the tranche's native frequency differs, then slice to `siglen` when one
is requested and the signal is long enough (`ensure` stands for the
external helper `ensure_siglen`). -/
def load_resampled_core (resampler : List (List ℚ) → ℚ → ℚ → List (List ℚ))
    (ensure : List (List ℚ) → ℕ → List (List ℚ))
    (data : List (List ℚ)) (tranche_freq : ℚ) (siglen : Option ℕ) :
    List (List ℚ) :=
  let d := if tranche_freq ≠ 500 then resampler data 500 tranche_freq else data
  match siglen with
  | some n => if n ≤ (d.headD []).length then ensure d n else d
  | none => d

/-- C8: requesting the signal at its native frequency with no fixed
target length is the identity — no resampling is performed, in both
`load_data` and `load_resampled_data`, whatever the resampler does. -/
theorem resample_identity (resampler : List (List ℚ) → ℚ → ℚ → List (List ℚ))
    (ensure : List (List ℚ) → ℕ → List (List ℚ))
    (data : List (List ℚ)) (f : ℚ) :
    resample_step resampler data (some f) f = data ∧
    load_resampled_core resampler ensure data 500 none = data := by
  constructor
  · simp [resample_step]
  · simp [load_resampled_core]

/-- The six data tranches of the challenge dataset. -/
inductive Tranche
  | A | B | C | D | E | F
deriving DecidableEq

/-- `value_correction_factor` of `CINC2020Reader.__init__`: 1 for every
tranche, except 4.88 for tranche F. -/
def value_correction_factor : Tranche → ℚ
  | Tranche.F => 488 / 100
  | _ => 1

/-- ASCII lower-casing of a character (Python `str.lower` on the ASCII
configuration strings used by the readers and detectors). -/
def lowerChar (c : Char) : Char :=
  if 65 ≤ c.toNat ∧ c.toNat ≤ 90 then Char.ofNat (c.toNat + 32) else c

/-- Python `str.lower` on ASCII strings. -/
def strLower (s : String) : String :=
  ⟨s.data.map lowerChar⟩

/-- `units.lower() in ['uv', 'μv']` of `CINC2020Reader.load_data`. -/
def isMicroVolt (units : String) : Bool :=
  strLower units == "uv" || strLower units == "μv"

/-- Three-way `zipWith`, for broadcasting per-lead baseline and gain
over the channel-first sample matrix. -/
def zipWith3 (f : α → β → γ → δ) : List α → List β → List γ → List δ
  | a :: as, b :: bs, c :: cs => f a b c :: zipWith3 f as bs cs
  | _, _, _ => []

/-- Physical-signal loading core of `CINC2020Reader.load_data` (scipy
backend, all leads, channel-first, no resampling): subtract the per-lead
baseline, divide by the per-lead ADC gain, multiply by the tranche
voltage correction factor, and scale by 1000 when µV output is
requested. -/
def load_data (digital : List (List ℚ)) (baseline adc_gain : List ℚ)
    (tranche : Tranche) (units : String) : List (List ℚ) :=
  let data := zipWith3 (fun row b g => row.map (fun d => (d - b) / g))
    digital baseline adc_gain
  let data := data.map (fun row => row.map (fun x => x * value_correction_factor tranche))
  match isMicroVolt units with
  | true => data.map (fun row => row.map (fun x => x * 1000))
  | false => data

theorem getD_map {α β : Type} (f : α → β) (l : List α) (i : ℕ) (da : α) (db : β)
    (h : i < l.length) : (l.map f).getD i db = f (l.getD i da) := by
  induction l generalizing i with
  | nil => simp at h
  | cons a t ih =>
    cases i with
    | zero => rfl
    | succ n => simpa using ih n (by simpa using h)

theorem zipWith3_getD {α β γ δ : Type} (f : α → β → γ → δ)
    (as : List α) (bs : List β) (cs : List γ) (i : ℕ)
    (da : α) (db : β) (dc : γ) (dd : δ)
    (ha : i < as.length) (hb : i < bs.length) (hc : i < cs.length) :
    (zipWith3 f as bs cs).getD i dd = f (as.getD i da) (bs.getD i db) (cs.getD i dc) := by
  induction as generalizing bs cs i with
  | nil => simp at ha
  | cons a as' ih =>
    cases bs with
    | nil => simp at hb
    | cons b bs' =>
      cases cs with
      | nil => simp at hc
      | cons c cs' =>
        cases i with
        | zero => rfl
        | succ n =>
          simp only [zipWith3, List.getD_cons_succ]
          exact ih bs' cs' n (by simpa using ha) (by simpa using hb) (by simpa using hc)

theorem lt_length_zipWith3 {α β γ δ : Type} (f : α → β → γ → δ)
    (as : List α) (bs : List β) (cs : List γ) (i : ℕ)
    (ha : i < as.length) (hb : i < bs.length) (hc : i < cs.length) :
    i < (zipWith3 f as bs cs).length := by
  induction as generalizing bs cs i with
  | nil => simp at ha
  | cons a as' ih =>
    cases bs with
    | nil => simp at hb
    | cons b bs' =>
      cases cs with
      | nil => simp at hc
      | cons c cs' =>
        cases i with
        | zero => simp [zipWith3]
        | succ n =>
          simp only [zipWith3, List.length_cons, Nat.succ_lt_succ_iff]
          exact ih bs' cs' n (by simpa using ha) (by simpa using hb) (by simpa using hc)

theorem value_correction_factor_eq (t : Tranche) :
    value_correction_factor t = if t = Tranche.F then 488 / 100 else 1 := by
  cases t <;> rfl

/-- C3: every loaded sample is `(digital - baseline) / adc_gain`, times
the tranche voltage correction factor — 1 for tranches A–E, 4.88 for
tranche F — times 1000 exactly when µV output is requested instead of
mV. -/
theorem load_data_pointwise (digital : List (List ℚ)) (baseline adc_gain : List ℚ)
    (tranche : Tranche) (units : String) (i j : ℕ)
    (hid : i < digital.length) (hib : i < baseline.length) (hig : i < adc_gain.length)
    (hj : j < (digital.getD i []).length) :
    ((load_data digital baseline adc_gain tranche units).getD i []).getD j 0 =
      ((digital.getD i []).getD j 0 - baseline.getD i 0) / adc_gain.getD i 0
        * (if tranche = Tranche.F then 488 / 100 else 1)
        * (if isMicroVolt units = true then 1000 else 1) := by
  have hz : (zipWith3 (fun (row : List ℚ) (b g : ℚ) => row.map (fun d => (d - b) / g))
      digital baseline adc_gain).getD i [] =
      (digital.getD i []).map (fun d => (d - baseline.getD i 0) / adc_gain.getD i 0) :=
    zipWith3_getD _ digital baseline adc_gain i [] 0 0 [] hid hib hig
  have hzl : i < (zipWith3 (fun (row : List ℚ) (b g : ℚ) => row.map (fun d => (d - b) / g))
      digital baseline adc_gain).length :=
    lt_length_zipWith3 _ digital baseline adc_gain i hid hib hig
  have hcorr : ((zipWith3 (fun (row : List ℚ) (b g : ℚ) => row.map (fun d => (d - b) / g))
        digital baseline adc_gain).map
        (fun row => row.map (fun x => x * value_correction_factor tranche))).getD i [] =
      ((digital.getD i []).map (fun d => (d - baseline.getD i 0) / adc_gain.getD i 0)).map
        (fun x => x * value_correction_factor tranche) := by
    rw [getD_map _ _ i [] [] hzl, hz]
  rw [← value_correction_factor_eq]
  cases hu : isMicroVolt units with
  | false =>
    simp only [load_data, hu, hcorr]
    rw [getD_map _ _ j 0 0 (by simpa using hj), getD_map _ _ j 0 0 hj]
    have hff : (if (false = true) then (1000 : ℚ) else 1) = 1 := by norm_num
    rw [hff]
    ring
  | true =>
    simp only [load_data, hu]
    rw [getD_map _ _ i [] [] (by simpa using hzl), hcorr,
      getD_map _ _ j 0 0 (by simpa using hj),
      getD_map _ _ j 0 0 (by simpa using hj), getD_map _ _ j 0 0 hj]
    rw [if_pos True.intro]

/-- Scenario 4 of the spec: digital samples `[0, 100, 200]`, baseline 0,
gain 100, tranche correction 1 and mV output yield `[0, 1, 2]`. -/
theorem load_data_pointwise_witness :
    (0 : ℕ) < ([[0, 100, 200]] : List (List ℚ)).length ∧
    (0 : ℕ) < ([(0 : ℚ)] : List ℚ).length ∧
    (0 : ℕ) < ([(100 : ℚ)] : List ℚ).length ∧
    (1 : ℕ) < (([[0, 100, 200]] : List (List ℚ)).getD 0 []).length ∧
    ((load_data [[0, 100, 200]] [0] [100] Tranche.A "mV").getD 0 []).getD 1 0 =
      ((([[0, 100, 200]] : List (List ℚ)).getD 0 []).getD 1 0 - ([(0 : ℚ)]).getD 0 0)
        / ([(100 : ℚ)]).getD 0 0
        * (if Tranche.A = Tranche.F then 488 / 100 else 1)
        * (if isMicroVolt "mV" = true then 1000 else 1) ∧
    load_data [[0, 100, 200]] [0] [100] Tranche.A "mV" = [[0, 1, 2]] := by
  have hmv : isMicroVolt "mV" = false := by decide
  refine ⟨by decide, by decide, by decide, by decide, ?_, ?_⟩
  · exact load_data_pointwise [[0, 100, 200]] [0] [100] Tranche.A "mV" 0 1
      (by decide) (by decide) (by decide) (by decide)
  · simp [load_data, hmv, zipWith3, value_correction_factor]
    norm_num

/-- The canonical 12-lead ordering `cfg.Standard12Leads`. -/
def Standard12Leads : List String :=
  ["I", "II", "III", "aVR", "aVL", "aVF", "V1", "V2", "V3", "V4", "V5", "V6"]

/-- The limb-lead group `cfg.LimbLeads`. -/
def LimbLeads : List String := ["I", "II", "III", "aVR", "aVL", "aVF"]

/-- The precordial-lead group `cfg.PrecordialLeads`. -/
def PrecordialLeads : List String := ["V1", "V2", "V3", "V4", "V5", "V6"]

/-- `sig_fmt.lower() in ['channel_first', 'lead_first']`, shared by the
detectors. -/
def isChannelFirst (fmt : String) : Bool :=
  strLower fmt == "channel_first" || strLower fmt == "lead_first"

/-- The orientation step of the detectors: copy when channel-first,
transpose otherwise. -/
def orientSig (fmt : String) (sig : List (List ℚ)) : List (List ℚ) :=
  match isChannelFirst fmt with
  | true => sig
  | false => sig.transpose

/-- Python slice `l[a:b]` for clipped window bounds `0 ≤ a`, `b`. -/
def sliceD (l : List ℚ) (a b : ℕ) : List ℚ := (l.take b).drop a

/-- `np.max` of a window; 0 for the empty slice, on which NumPy raises
instead, so claims only rely on it where the slices are nonempty. -/
def npMax : List ℚ → ℚ
  | [] => 0
  | a :: t => t.foldl max a

/-- `np.min` of a window, with the same convention as `npMax`. -/
def npMin : List ℚ → ℚ
  | [] => 0
  | a :: t => t.foldl min a

/-- The QRS windows `[max(0, r - radius), min(sig_len - 1, r + radius)]`
built by `electrical_axis_detector`, one per R-peak, silently clipped
to the signal bounds. -/
def axis_qrs_intervals (sig_len : ℕ) (radius : ℤ) (rpeaks : List ℤ) : List (ℕ × ℕ) :=
  rpeaks.map (fun r => ((max 0 (r - radius)).toNat, (min ((sig_len : ℤ) - 1) (r + radius)).toNat))

/-- `np.max(lead[a:b]) > np.abs(np.min(lead[a:b]))`: one QRS window has a
net positive deflection. -/
def windowPositive (lead : List ℚ) (itv : ℕ × ℕ) : Bool :=
  decide (npMax (sliceD lead itv.1 itv.2) > |npMin (sliceD lead itv.1 itv.2)|)

/-- `sum([...]) >= len(l_qrs) // 2 + 1`: the source's majority vote for
one lead over all QRS windows. -/
def leadPositive (lead : List ℚ) (l_qrs : List (ℕ × ℕ)) : Bool :=
  decide (l_qrs.length / 2 + 1 ≤ l_qrs.countP (windowPositive lead))

/-- The spec's strict-majority positivity criterion: the window maximum
strictly exceeds the absolute window minimum in strictly more than half
of the QRS windows. -/
def strictMajorityPositive (lead : List ℚ) (l_qrs : List (ℕ × ℕ)) : Prop :=
  l_qrs.length < 2 * l_qrs.countP (windowPositive lead)

instance (lead : List ℚ) (l_qrs : List (ℕ × ℕ)) :
    Decidable (strictMajorityPositive lead l_qrs) :=
  inferInstanceAs (Decidable (_ < _))

/-- `electrical_axis_detector` of `models/special_detectors.py`.  The
`assert` on the decision-method string is embedded as `none` on an
unsupported method; `2-lead` uses leads I and aVF, `3-lead` also lead
II. -/
def electrical_axis_detector (filtered_sig : List (List ℚ)) (rpeaks : List ℤ)
    (fs : ℚ) (sig_fmt : String) (method : Option String) (cfg : FeatureCfg) :
    Option String :=
  let decision_method := strLower (match method with
    | none => cfg.axis_method
    | some m => match m == "" with
      | true => cfg.axis_method
      | false => m)
  match decision_method == "2-lead" || decision_method == "3-lead" with
  | false => none
  | true =>
    let s := orientSig sig_fmt filtered_sig
    let lead_I := s.getD (Standard12Leads.indexOf "I") []
    let lead_II := s.getD (Standard12Leads.indexOf "II") []
    let lead_aVF := s.getD (Standard12Leads.indexOf "aVF") []
    let sig_len := (s.headD []).length
    let radius := ms2samples cfg.axis_qrs_mask_radius fs
    let l_qrs := axis_qrs_intervals sig_len radius rpeaks
    let lead_I_positive := leadPositive lead_I l_qrs
    let lead_aVF_positive := leadPositive lead_aVF l_qrs
    let lead_II_positive := leadPositive lead_II l_qrs
    match decision_method == "2-lead" with
    | true =>
      some (match lead_I_positive, lead_aVF_positive with
        | true, false => "LAD"
        | false, true => "RAD"
        | _, _ => "normal")
    | false =>
      some (match lead_I_positive, lead_II_positive, lead_aVF_positive with
        | true, false, false => "LAD"
        | false, _, true => "RAD"
        | _, _, _ => "normal")

/-- The QRS window list the axis detector derives from a channel-first
signal, peak list, sampling frequency and configuration. -/
def axisWindows (sig : List (List ℚ)) (rpeaks : List ℤ) (fs : ℚ)
    (cfg : FeatureCfg) : List (ℕ × ℕ) :=
  axis_qrs_intervals ((sig.headD []).length) (ms2samples cfg.axis_qrs_mask_radius fs) rpeaks

theorem leadPositive_eq_true_iff (lead : List ℚ) (W : List (ℕ × ℕ)) :
    leadPositive lead W = true ↔ strictMajorityPositive lead W := by
  simp only [leadPositive, strictMajorityPositive, decide_eq_true_eq]
  omega

theorem leadPositive_eq_false_iff (lead : List ℚ) (W : List (ℕ × ℕ)) :
    leadPositive lead W = false ↔ ¬ strictMajorityPositive lead W := by
  rw [← leadPositive_eq_true_iff]
  cases leadPositive lead W <;> simp

/-- Evaluation of the axis detector, channel-first, `2-lead` method. -/
theorem axis_detector_eval_two_lead (sig : List (List ℚ)) (rpeaks : List ℤ)
    (fs : ℚ) (cfg : FeatureCfg) :
    electrical_axis_detector sig rpeaks fs "channel_first" (some "2-lead") cfg =
      some (match leadPositive (sig.getD 0 []) (axisWindows sig rpeaks fs cfg),
                  leadPositive (sig.getD 5 []) (axisWindows sig rpeaks fs cfg) with
            | true, false => "LAD"
            | false, true => "RAD"
            | _, _ => "normal") := by
  have he : (("2-lead" : String) == "") = false := by decide
  have hlow : strLower "2-lead" = "2-lead" := by decide
  have hv : (("2-lead" : String) == "2-lead" || ("2-lead" : String) == "3-lead") = true := by decide
  have h2 : (("2-lead" : String) == "2-lead") = true := by decide
  have hcf : isChannelFirst "channel_first" = true := by decide
  have hI : Standard12Leads.indexOf "I" = 0 := by decide
  have hII : Standard12Leads.indexOf "II" = 1 := by decide
  have hVF : Standard12Leads.indexOf "aVF" = 5 := by decide
  simp only [electrical_axis_detector, he, hlow, hv, h2, Bool.true_or, orientSig, hcf,
    hI, hII, hVF, axisWindows]

/-- Evaluation of the axis detector, channel-first, `3-lead` method. -/
theorem axis_detector_eval_three_lead (sig : List (List ℚ)) (rpeaks : List ℤ)
    (fs : ℚ) (cfg : FeatureCfg) :
    electrical_axis_detector sig rpeaks fs "channel_first" (some "3-lead") cfg =
      some (match leadPositive (sig.getD 0 []) (axisWindows sig rpeaks fs cfg),
                  leadPositive (sig.getD 1 []) (axisWindows sig rpeaks fs cfg),
                  leadPositive (sig.getD 5 []) (axisWindows sig rpeaks fs cfg) with
            | true, false, false => "LAD"
            | false, _, true => "RAD"
            | _, _, _ => "normal") := by
  have he : (("3-lead" : String) == "") = false := by decide
  have hlow : strLower "3-lead" = "3-lead" := by decide
  have hv : (("3-lead" : String) == "2-lead" || ("3-lead" : String) == "3-lead") = true := by decide
  have h2 : (("3-lead" : String) == "2-lead") = false := by decide
  have h3 : (("3-lead" : String) == "3-lead") = true := by decide
  have hcf : isChannelFirst "channel_first" = true := by decide
  have hI : Standard12Leads.indexOf "I" = 0 := by decide
  have hII : Standard12Leads.indexOf "II" = 1 := by decide
  have hVF : Standard12Leads.indexOf "aVF" = 5 := by decide
  simp only [electrical_axis_detector, he, hlow, hv, h2, h3, Bool.false_or, orientSig,
    hcf, hI, hII, hVF, axisWindows]

theorem leadPositive_eq_decide (lead : List ℚ) (W : List (ℕ × ℕ)) :
    leadPositive lead W = decide (strictMajorityPositive lead W) := by
  by_cases h : strictMajorityPositive lead W
  · rw [(leadPositive_eq_true_iff _ _).mpr h, decide_eq_true h]
  · rw [(leadPositive_eq_false_iff _ _).mpr h, decide_eq_false h]

theorem match2_eq_if (PI PVF : Prop) [Decidable PI] [Decidable PVF] :
    (match decide PI, decide PVF with
      | true, false => "LAD"
      | false, true => "RAD"
      | _, _ => "normal") =
      (if PI ∧ ¬ PVF then "LAD" else if ¬ PI ∧ PVF then "RAD" else "normal") := by
  by_cases hPI : PI <;> by_cases hPVF : PVF <;> simp [hPI, hPVF]

theorem match3_eq_if (PI PII PVF : Prop)
    [Decidable PI] [Decidable PII] [Decidable PVF] :
    (match decide PI, decide PII, decide PVF with
      | true, false, false => "LAD"
      | false, _, true => "RAD"
      | _, _, _ => "normal") =
      (if PI ∧ ¬ PII ∧ ¬ PVF then "LAD" else if ¬ PI ∧ PVF then "RAD" else "normal") := by
  by_cases hPI : PI <;> by_cases hPII : PII <;> by_cases hPVF : PVF <;>
    simp [hPI, hPII, hPVF]

/-- C4: with a non-empty R-peak set, a lead is "positive" iff the window
maximum strictly exceeds the absolute window minimum in a strict
majority (`2 · count > n`, i.e. `count ≥ n/2 + 1`) of the QRS windows;
the `2-lead` method returns LAD iff I is positive and aVF is not, RAD
iff I is not positive and aVF is, else normal; the `3-lead` method
returns LAD iff I is positive and II and aVF are not, RAD iff I is not
positive and aVF is, else normal (extreme axis counted as normal). -/
theorem electrical_axis_decision_rules (sig : List (List ℚ)) (rpeaks : List ℤ)
    (fs : ℚ) (cfg : FeatureCfg) (hne : rpeaks ≠ []) :
    (electrical_axis_detector sig rpeaks fs "channel_first" (some "2-lead") cfg =
      some (if strictMajorityPositive (sig.getD 0 []) (axisWindows sig rpeaks fs cfg) ∧
                ¬ strictMajorityPositive (sig.getD 5 []) (axisWindows sig rpeaks fs cfg)
            then "LAD"
            else if ¬ strictMajorityPositive (sig.getD 0 []) (axisWindows sig rpeaks fs cfg) ∧
                strictMajorityPositive (sig.getD 5 []) (axisWindows sig rpeaks fs cfg)
            then "RAD"
            else "normal")) ∧
    (electrical_axis_detector sig rpeaks fs "channel_first" (some "3-lead") cfg =
      some (if strictMajorityPositive (sig.getD 0 []) (axisWindows sig rpeaks fs cfg) ∧
                ¬ strictMajorityPositive (sig.getD 1 []) (axisWindows sig rpeaks fs cfg) ∧
                ¬ strictMajorityPositive (sig.getD 5 []) (axisWindows sig rpeaks fs cfg)
            then "LAD"
            else if ¬ strictMajorityPositive (sig.getD 0 []) (axisWindows sig rpeaks fs cfg) ∧
                strictMajorityPositive (sig.getD 5 []) (axisWindows sig rpeaks fs cfg)
            then "RAD"
            else "normal")) := by
  rw [axis_detector_eval_two_lead, axis_detector_eval_three_lead]
  simp only [leadPositive_eq_decide]
  exact ⟨congrArg some (match2_eq_if _ _), congrArg some (match3_eq_if _ _ _)⟩

/-- Scenario 3 style input: all-zero leads are never positive, so both
methods yield `normal`; the peak list `[1]` is non-empty. -/
theorem electrical_axis_decision_rules_witness :
    (([1] : List ℤ) ≠ []) ∧
    electrical_axis_detector (List.replicate 12 [(0 : ℚ), 0]) [1] 500 "channel_first"
        (some "2-lead") testCfg =
      some (if strictMajorityPositive ((List.replicate 12 [(0 : ℚ), 0]).getD 0 [])
                  (axisWindows (List.replicate 12 [(0 : ℚ), 0]) [1] 500 testCfg) ∧
                ¬ strictMajorityPositive ((List.replicate 12 [(0 : ℚ), 0]).getD 5 [])
                  (axisWindows (List.replicate 12 [(0 : ℚ), 0]) [1] 500 testCfg)
            then "LAD"
            else if ¬ strictMajorityPositive ((List.replicate 12 [(0 : ℚ), 0]).getD 0 [])
                  (axisWindows (List.replicate 12 [(0 : ℚ), 0]) [1] 500 testCfg) ∧
                strictMajorityPositive ((List.replicate 12 [(0 : ℚ), 0]).getD 5 [])
                  (axisWindows (List.replicate 12 [(0 : ℚ), 0]) [1] 500 testCfg)
            then "RAD"
            else "normal") :=
  ⟨by decide, (electrical_axis_decision_rules (List.replicate 12 [(0 : ℚ), 0]) [1] 500
      testCfg (by decide)).1⟩


/-- A 12-lead all-zero signal of length 10, used for the concrete
evaluations. -/
def zeroSig12 : List (List ℚ) := List.replicate 12 (List.replicate 10 0)

theorem axisWindows_zeroSig12 :
    axisWindows zeroSig12 [10] 20 testCfg = [(8, 9)] := by
  have hrad : ms2samples testCfg.axis_qrs_mask_radius 20 = 2 := by
    norm_num [ms2samples, testCfg, round_eq]
  simp only [axisWindows, hrad]
  decide

/-- C6 (amended): the detectors perform no validation of the R-peak set
at all: any integer peak list — non-monotonic or outside
`[0, waveform_length)` — is silently clamped by the window-clipping step
and yields an ordinary axis verdict; no `InvalidPeakSetError` exists.
(The nonempty-window hypothesis keeps the embedding aligned with NumPy,
whose `np.max` raises on an empty window — still not a peak-set
validation error.) -/
theorem electrical_axis_no_peak_validation (sig : List (List ℚ)) (rpeaks : List ℤ)
    (fs : ℚ) (cfg : FeatureCfg)
    (hwin : ∀ p ∈ axisWindows sig rpeaks fs cfg, p.1 < p.2) :
    (∃ v, electrical_axis_detector sig rpeaks fs "channel_first" (some "2-lead") cfg =
        some v ∧ (v = "normal" ∨ v = "LAD" ∨ v = "RAD")) ∧
    (∃ v, electrical_axis_detector sig rpeaks fs "channel_first" (some "3-lead") cfg =
        some v ∧ (v = "normal" ∨ v = "LAD" ∨ v = "RAD")) := by
  rw [axis_detector_eval_two_lead, axis_detector_eval_three_lead]
  constructor
  · cases h1 : leadPositive (sig.getD 0 []) (axisWindows sig rpeaks fs cfg) <;>
      cases h2 : leadPositive (sig.getD 5 []) (axisWindows sig rpeaks fs cfg) <;>
      exact ⟨_, rfl, by
        first
        | exact Or.inl rfl
        | exact Or.inr (Or.inl rfl)
        | exact Or.inr (Or.inr rfl)⟩
  · cases h1 : leadPositive (sig.getD 0 []) (axisWindows sig rpeaks fs cfg) <;>
      cases h2 : leadPositive (sig.getD 1 []) (axisWindows sig rpeaks fs cfg) <;>
      cases h3 : leadPositive (sig.getD 5 []) (axisWindows sig rpeaks fs cfg) <;>
      exact ⟨_, rfl, by
        first
        | exact Or.inl rfl
        | exact Or.inr (Or.inl rfl)
        | exact Or.inr (Or.inr rfl)⟩

/-- C6 counterexample: the R-peak `10` lies outside `[0, 10)`, yet the
axis detector raises nothing: the window-clipping step silently clamps
it to the window `[8, 9)` and the call returns the verdict `normal`. -/
theorem electrical_axis_out_of_bounds_silent_clamp :
    electrical_axis_detector zeroSig12 [10] 20 "channel_first" (some "2-lead") testCfg =
      some "normal" := by
  rw [axis_detector_eval_two_lead, axisWindows_zeroSig12]
  decide

theorem electrical_axis_no_peak_validation_witness :
    (∀ p ∈ axisWindows zeroSig12 [10] 20 testCfg, p.1 < p.2) ∧
    ((∃ v, electrical_axis_detector zeroSig12 [10] 20 "channel_first" (some "2-lead")
        testCfg = some v ∧ (v = "normal" ∨ v = "LAD" ∨ v = "RAD")) ∧
      (∃ v, electrical_axis_detector zeroSig12 [10] 20 "channel_first" (some "3-lead")
        testCfg = some v ∧ (v = "normal" ∨ v = "LAD" ∨ v = "RAD"))) := by
  have hwin : ∀ p ∈ axisWindows zeroSig12 [10] 20 testCfg, p.1 < p.2 := by
    rw [axisWindows_zeroSig12]; decide
  exact ⟨hwin, electrical_axis_no_peak_validation zeroSig12 [10] 20 testCfg hwin⟩


theorem getD_map_rows (f : ℚ → ℚ) (sig : List (List ℚ)) (i : ℕ) :
    (sig.map (fun row => row.map f)).getD i [] = (sig.getD i []).map f := by
  induction sig generalizing i with
  | nil => cases i <;> rfl
  | cons a t ih =>
    cases i with
    | zero => rfl
    | succ n => simpa using ih n

theorem headD_length_map (f : ℚ → ℚ) (sig : List (List ℚ)) :
    ((sig.map (fun row => row.map f)).headD []).length = (sig.headD []).length := by
  cases sig <;> simp

theorem sliceD_map (f : ℚ → ℚ) (l : List ℚ) (a b : ℕ) :
    sliceD (l.map f) a b = (sliceD l a b).map f := by
  simp [sliceD]

theorem foldl_max_mul (c : ℚ) (hc : 0 ≤ c) (l : List ℚ) (a : ℚ) :
    (l.map (fun x => c * x)).foldl max (c * a) = c * l.foldl max a := by
  induction l generalizing a with
  | nil => rfl
  | cons x t ih =>
    simp only [List.map_cons, List.foldl_cons, ← mul_max_of_nonneg a x hc]
    exact ih (max a x)

theorem foldl_min_mul (c : ℚ) (hc : 0 ≤ c) (l : List ℚ) (a : ℚ) :
    (l.map (fun x => c * x)).foldl min (c * a) = c * l.foldl min a := by
  induction l generalizing a with
  | nil => rfl
  | cons x t ih =>
    simp only [List.map_cons, List.foldl_cons, ← mul_min_of_nonneg a x hc]
    exact ih (min a x)

theorem npMax_mul (c : ℚ) (hc : 0 ≤ c) (l : List ℚ) :
    npMax (l.map (fun x => c * x)) = c * npMax l := by
  cases l with
  | nil => simp [npMax]
  | cons a t => exact foldl_max_mul c hc t a

theorem npMin_mul (c : ℚ) (hc : 0 ≤ c) (l : List ℚ) :
    npMin (l.map (fun x => c * x)) = c * npMin l := by
  cases l with
  | nil => simp [npMin]
  | cons a t => exact foldl_min_mul c hc t a

theorem windowPositive_mul (c : ℚ) (hc : 0 < c) (lead : List ℚ) (itv : ℕ × ℕ) :
    windowPositive (lead.map (fun x => c * x)) itv = windowPositive lead itv := by
  simp only [windowPositive, sliceD_map, npMax_mul c hc.le, npMin_mul c hc.le,
    abs_mul, abs_of_pos hc]
  exact decide_eq_decide.mpr (mul_lt_mul_left hc)

theorem leadPositive_mul (c : ℚ) (hc : 0 < c) (lead : List ℚ) (q : List (ℕ × ℕ)) :
    leadPositive (lead.map (fun x => c * x)) q = leadPositive lead q := by
  have hfun : windowPositive (lead.map (fun x => c * x)) = windowPositive lead :=
    funext (windowPositive_mul c hc lead)
  simp only [leadPositive, hfun]

/-- C7: scaling the whole (channel-first) waveform by a positive factor
never changes the axis verdict: the per-window max/|min| comparison and
hence every majority vote is invariant under positive scaling. -/
theorem electrical_axis_scale_invariance (sig : List (List ℚ)) (c : ℚ)
    (rpeaks : List ℤ) (fs : ℚ) (sig_fmt : String) (method : Option String)
    (cfg : FeatureCfg) (hc : 0 < c) (hfmt : isChannelFirst sig_fmt = true) :
    electrical_axis_detector (sig.map (fun row => row.map (fun x => c * x)))
        rpeaks fs sig_fmt method cfg =
      electrical_axis_detector sig rpeaks fs sig_fmt method cfg := by
  simp only [electrical_axis_detector, orientSig, hfmt, getD_map_rows,
    headD_length_map, leadPositive_mul c hc]

theorem electrical_axis_scale_invariance_witness :
    (0 : ℚ) < 2 ∧ isChannelFirst "channel_first" = true ∧
    electrical_axis_detector
        ((List.replicate 12 [(1 : ℚ), -2]).map (fun row => row.map (fun x => 2 * x)))
        [1] 500 "channel_first" (some "2-lead") testCfg =
      electrical_axis_detector (List.replicate 12 [(1 : ℚ), -2]) [1] 500
        "channel_first" (some "2-lead") testCfg :=
  ⟨by decide, by decide,
    electrical_axis_scale_invariance (List.replicate 12 [(1 : ℚ), -2]) 2 [1] 500
      "channel_first" (some "2-lead") testCfg (by decide) (by decide)⟩


/-- Modelled from the spec: `utils.misc.get_mask` is not shipped under
`src/`; per the spec, it builds one window per critical point, "clipped
to signal bounds", here as half-open sample intervals. -/
def get_mask_intervals (sig_len : ℕ) (critical_points : List ℤ)
    (left_bias right_bias : ℤ) : List (ℕ × ℕ) :=
  critical_points.map (fun r =>
    ((max 0 (r - left_bias)).toNat, (min (sig_len : ℤ) (r + right_bias)).toNat))

/-- Concatenation of a list of lists (the nested append loop of
`LQRSV_detector`). -/
def catLists : List (List α) → List α
  | [] => []
  | a :: t => a ++ catLists t

/-- The per-interval, per-lead window slices collected by the nested
loop of `LQRSV_detector` (outer loop over QRS intervals, inner loop over
the group's lead indices). -/
def groupWindows (sig_ampl : List (List ℚ)) (lead_inds : List ℕ)
    (l_qrs : List (ℕ × ℕ)) : List (List ℚ) :=
  catLists (l_qrs.map (fun itv =>
    lead_inds.map (fun idx => sliceD (sig_ampl.getD idx []) itv.1 itv.2)))

/-- `[Standard12Leads.index(l) for l in LimbLeads]`. -/
def limb_lead_inds : List ℕ := LimbLeads.map (fun l => Standard12Leads.indexOf l)

/-- `[Standard12Leads.index(l) for l in PrecordialLeads]`. -/
def precordial_lead_inds : List ℕ :=
  PrecordialLeads.map (fun l => Standard12Leads.indexOf l)

/-- Fraction of group windows whose peak amplitude is at or below the
ceiling: `sum([np.max(item) <= ceiling ...]) / len(...)`. -/
def lowRatio (windows : List (List ℚ)) (ceiling : ℚ) : ℚ :=
  ((windows.countP (fun w => decide (npMax w ≤ ceiling))) : ℚ) / (windows.length : ℚ)

/-- The absolute-valued, channel-first-oriented signal of
`LQRSV_detector`. -/
def lqrsvAmpl (sig_fmt : String) (filtered_sig : List (List ℚ)) : List (List ℚ) :=
  (orientSig sig_fmt filtered_sig).map (fun row => row.map (fun x => |x|))

/-- The QRS mask intervals of `LQRSV_detector`. -/
def lqrsvWindows (sig_fmt : String) (filtered_sig : List (List ℚ))
    (rpeaks : List ℤ) (fs : ℚ) (cfg : FeatureCfg) : List (ℕ × ℕ) :=
  get_mask_intervals ((lqrsvAmpl sig_fmt filtered_sig).headD []).length rpeaks
    (ms2samples cfg.lqrsv_qrs_mask_radius fs) (ms2samples cfg.lqrsv_qrs_mask_radius fs)

/-- The two low-amplitude fractions of `LQRSV_detector`: limb-lead group
against the `0.5 mV + bias` ceiling, precordial group against
`1 mV + bias`. -/
def LQRSV_ratios (filtered_sig : List (List ℚ)) (rpeaks : List ℤ) (fs : ℚ)
    (sig_fmt : String) (cfg : FeatureCfg) : ℚ × ℚ :=
  (lowRatio (groupWindows (lqrsvAmpl sig_fmt filtered_sig) limb_lead_inds
      (lqrsvWindows sig_fmt filtered_sig rpeaks fs cfg)) (1 / 2 + cfg.lqrsv_ampl_bias),
   lowRatio (groupWindows (lqrsvAmpl sig_fmt filtered_sig) precordial_lead_inds
      (lqrsvWindows sig_fmt filtered_sig rpeaks fs cfg)) (1 + cfg.lqrsv_ampl_bias))

/-- `LQRSV_detector` of `models/special_detectors.py`: true iff either
group fraction is at or above the configured ratio threshold. -/
def LQRSV_detector (filtered_sig : List (List ℚ)) (rpeaks : List ℤ) (fs : ℚ)
    (sig_fmt : String) (cfg : FeatureCfg) : Bool :=
  decide (cfg.lqrsv_ratio_threshold ≤ (LQRSV_ratios filtered_sig rpeaks fs sig_fmt cfg).1) ||
  decide (cfg.lqrsv_ratio_threshold ≤ (LQRSV_ratios filtered_sig rpeaks fs sig_fmt cfg).2)

theorem length_catLists (L : List (List α)) :
    (catLists L).length = (L.map List.length).sum := by
  induction L with
  | nil => rfl
  | cons a t ih => simp [catLists, ih]

theorem length_groupWindows (s : List (List ℚ)) (inds : List ℕ)
    (q : List (ℕ × ℕ)) :
    (groupWindows s inds q).length = q.length * inds.length := by
  induction q with
  | nil => simp [groupWindows, catLists]
  | cons a t ih =>
    simp only [groupWindows, List.map_cons, catLists, List.length_append,
      List.length_map, List.length_cons] at ih ⊢
    rw [ih]
    ring

theorem lowRatio_bounds (w : List (List ℚ)) (ceiling : ℚ) (hw : w ≠ []) :
    0 ≤ lowRatio w ceiling ∧ lowRatio w ceiling ≤ 1 := by
  have hlen : 0 < ((w.length : ℕ) : ℚ) := by
    exact_mod_cast List.length_pos.mpr hw
  constructor
  · exact div_nonneg (by positivity) hlen.le
  · rw [lowRatio, div_le_one hlen]
    exact_mod_cast List.countP_le_length _

/-- C5: with a non-empty R-peak set, both group fractions lie in
`[0, 1]`, and the verdict is true iff at least one group fraction
reaches the configured ratio threshold (boundary-inclusive `≥`). -/
theorem LQRSV_ratio_bounds_and_verdict (sig : List (List ℚ)) (rpeaks : List ℤ)
    (fs : ℚ) (cfg : FeatureCfg) (hne : rpeaks ≠ []) :
    (0 ≤ (LQRSV_ratios sig rpeaks fs "channel_first" cfg).1 ∧
      (LQRSV_ratios sig rpeaks fs "channel_first" cfg).1 ≤ 1) ∧
    (0 ≤ (LQRSV_ratios sig rpeaks fs "channel_first" cfg).2 ∧
      (LQRSV_ratios sig rpeaks fs "channel_first" cfg).2 ≤ 1) ∧
    (LQRSV_detector sig rpeaks fs "channel_first" cfg = true ↔
      (cfg.lqrsv_ratio_threshold ≤ (LQRSV_ratios sig rpeaks fs "channel_first" cfg).1 ∨
        cfg.lqrsv_ratio_threshold ≤ (LQRSV_ratios sig rpeaks fs "channel_first" cfg).2)) := by
  have hq : 0 < (lqrsvWindows "channel_first" sig rpeaks fs cfg).length := by
    simp only [lqrsvWindows, get_mask_intervals, List.length_map]
    exact List.length_pos.mpr hne
  have hlimb : groupWindows (lqrsvAmpl "channel_first" sig) limb_lead_inds
      (lqrsvWindows "channel_first" sig rpeaks fs cfg) ≠ [] := by
    apply List.ne_nil_of_length_pos
    rw [length_groupWindows]
    have h6 : limb_lead_inds.length = 6 := by decide
    rw [h6]
    omega
  have hprec : groupWindows (lqrsvAmpl "channel_first" sig) precordial_lead_inds
      (lqrsvWindows "channel_first" sig rpeaks fs cfg) ≠ [] := by
    apply List.ne_nil_of_length_pos
    rw [length_groupWindows]
    have h6 : precordial_lead_inds.length = 6 := by decide
    rw [h6]
    omega
  refine ⟨lowRatio_bounds _ _ hlimb, lowRatio_bounds _ _ hprec, ?_⟩
  simp [LQRSV_detector]

theorem LQRSV_ratio_bounds_and_verdict_witness :
    (([1] : List ℤ) ≠ []) ∧
    ((0 ≤ (LQRSV_ratios zeroSig12 [1] 20 "channel_first" testCfg).1 ∧
      (LQRSV_ratios zeroSig12 [1] 20 "channel_first" testCfg).1 ≤ 1) ∧
    (0 ≤ (LQRSV_ratios zeroSig12 [1] 20 "channel_first" testCfg).2 ∧
      (LQRSV_ratios zeroSig12 [1] 20 "channel_first" testCfg).2 ≤ 1) ∧
    (LQRSV_detector zeroSig12 [1] 20 "channel_first" testCfg = true ↔
      (testCfg.lqrsv_ratio_threshold ≤
          (LQRSV_ratios zeroSig12 [1] 20 "channel_first" testCfg).1 ∨
        testCfg.lqrsv_ratio_threshold ≤
          (LQRSV_ratios zeroSig12 [1] 20 "channel_first" testCfg).2))) :=
  ⟨by decide, LQRSV_ratio_bounds_and_verdict zeroSig12 [1] 20 testCfg (by decide)⟩


end Cinc2020
